import Mathlib

/-
Verification of the order-fulfillment core of the Service-Observability
repository (variant `prometheus-metrics/app`): the order orchestrator
(`app/services/order_service.py`), the stock ledger / reservation manager
(`app/services/inventory_service.py`) and the order status state machine.

The embedding is a shallow one: the SQLAlchemy session is replaced by an
explicit database state record that every operation threads through, and a
commit is simply the new state (an exception before the final commit of an
operation leaves the state of that operation unchanged, mirroring
`session.rollback()` in the source's `except` blocks).  Python `int`
quantities and prices are embedded as `Int` (they are unbounded and may go
negative, e.g. `reserved_quantity` after releasing a negative reservation).
Timestamp fields (`created_at`, `updated_at`, `reserved_at`, `expires_at`,
`last_updated`), free-text fields (`shipping_address`, `notes`) and the
Prometheus metric counters are not modelled: no property below mentions
them and they influence no control flow in the modelled code paths.
The payment gateway outcome (`payment.status.value == "completed"` in
`process_order_payment`) is passed in as a boolean parameter, since
the orchestrator only branches on that comparison.
-/

namespace ServiceObservability

/-- Order status enumeration, from `app/models.py` (`class OrderStatus`). -/
inductive OrderStatus
  | pending
  | confirmed
  | shipped
  | delivered
  | cancelled
deriving DecidableEq, Repr

/-- Stock row, from `app/models.py` (`class Stock`): one row per product,
with available and reserved quantities. -/
structure Stock where
  id : Nat
  product_id : Nat
  available_quantity : Int
  reserved_quantity : Int
  reorder_level : Int
deriving DecidableEq, Repr

/-- Stock reservation row, from `app/models.py` (`class StockReservation`). -/
structure StockReservation where
  id : Nat
  stock_id : Nat
  order_id : Nat
  quantity : Int
  active : Bool
deriving DecidableEq, Repr

/-- Order row, from `app/models.py` (`class Order`). -/
structure OrderRec where
  id : Nat
  user_id : Nat
  status : OrderStatus
  total_amount : Int
deriving DecidableEq, Repr

/-- Order item row, from `app/models.py` (`class OrderItem`). -/
structure OrderItemRec where
  order_id : Nat
  product_id : Nat
  quantity : Int
  unit_price : Int
  total_price : Int
deriving DecidableEq, Repr

/-- Product row, from `app/models.py` (`class Product`); only the fields the
orchestrator reads (`id`, `price`) are kept. -/
structure ProductRec where
  id : Nat
  price : Int
deriving DecidableEq, Repr

/-- The database state threaded through every service call in place of the
SQLAlchemy `AsyncSession`.  `users` keeps only the ids of existing users
(`user_service.get_user_by_id` is used solely for an existence check in the
modelled paths).  `nextOrderId` / `nextReservationId` model the
autoincrement primary keys. -/
structure DBState where
  users : List Nat
  products : List ProductRec
  stocks : List Stock
  reservations : List StockReservation
  orders : List OrderRec
  order_items : List OrderItemRec
  nextOrderId : Nat
  nextReservationId : Nat
deriving DecidableEq, Repr

/-- Error outcomes of the orchestrator and ledger calls.  `ValueError`s of
the source are split by their message; `attributeError` is Python's
`AttributeError`, raised when a missing method is called; `noResultFound`
is SQLAlchemy's `NoResultFound` from `scalar_one()`. -/
inductive Err
  | userNotFound
  | productNotFound
  | insufficientInventory
  | orderNotFound
  | invalidStatus
  | attributeError
  | noResultFound
deriving DecidableEq, Repr

/-- InventoryService.get_stock_by_product_id: `select(Stock).where(Stock.product_id == product_id)`,
`scalar_one_or_none()`. -/
def get_stock_by_product_id (st : DBState) (product_id : Nat) : Option Stock :=
  st.stocks.find? (fun s => s.product_id == product_id)

/-- The in-place mutation of the found stock row in
InventoryService.reserve_stock (`stock.available_quantity -= quantity;
stock.reserved_quantity += quantity`), applied to the rows whose primary
key matches the mutated ORM object. -/
def reserve_apply (sid : Nat) (quantity : Int) (s : Stock) : Stock :=
  if s.id == sid then
    { s with
      available_quantity := s.available_quantity - quantity,
      reserved_quantity := s.reserved_quantity + quantity }
  else s

/-- InventoryService.reserve_stock: returns false when the stock row is
absent or `available_quantity < quantity`; otherwise decrements
`available_quantity`, increments `reserved_quantity`, inserts an active
reservation row and commits, returning true. -/
def reserve_stock (st : DBState) (product_id : Nat) (quantity : Int) (order_id : Nat) :
    Bool × DBState :=
  match get_stock_by_product_id st product_id with
  | none => (false, st)
  | some stock =>
    if stock.available_quantity < quantity then (false, st)
    else
      (true,
        { st with
          stocks := st.stocks.map (reserve_apply stock.id quantity),
          reservations := st.reservations ++
            [{ id := st.nextReservationId, stock_id := stock.id, order_id := order_id,
               quantity := quantity, active := true }],
          nextReservationId := st.nextReservationId + 1 })

/-- The in-place mutation of a reservation's stock row in
InventoryService.release_reservation (`stock.available_quantity +=
reservation.quantity; stock.reserved_quantity -= reservation.quantity`),
applied to the rows whose primary key matches the mutated ORM object. -/
def release_apply (r : StockReservation) (s : Stock) : Stock :=
  if s.id == r.stock_id then
    { s with
      available_quantity := s.available_quantity + r.quantity,
      reserved_quantity := s.reserved_quantity - r.quantity }
  else s

/-- One iteration of the release loop in
InventoryService.release_reservation: load the reservation's stock row with
`scalar_one()` (which raises `NoResultFound` when absent, modelled by
`none`), then return the quantity from reserved to available. -/
def releaseOne (stocks : List Stock) (r : StockReservation) : Option (List Stock) :=
  match stocks.find? (fun s => s.id == r.stock_id) with
  | none => none
  | some _ => some (stocks.map (release_apply r))

/-- The release loop over all active reservations of an order. -/
def releaseLoop (stocks : List Stock) : List StockReservation → Option (List Stock)
  | [] => some stocks
  | r :: rs =>
    match releaseOne stocks r with
    | none => none
    | some stocks' => releaseLoop stocks' rs

/-- Active reservations of an order, as selected by
`select(StockReservation).where(order_id == .., active == True)`. -/
def active_reservations (st : DBState) (order_id : Nat) : List StockReservation :=
  st.reservations.filter (fun r => r.order_id == order_id && r.active)

/-- Marking a reservation inactive (`reservation.active = False`), applied
to the rows the release/confirm loop iterates over (the order's active
reservations). -/
def deactivate_for (order_id : Nat) (r : StockReservation) : StockReservation :=
  if r.order_id == order_id && r.active then { r with active := false } else r

/-- InventoryService.release_reservation: returns `ok (false, st)` when the
order has no active reservations; otherwise returns each active
reservation's quantity from reserved back to available, marks the
reservations inactive and commits.  An exception inside the loop rolls the
whole transaction back (`except: await session.rollback(); raise`), so the
error case carries no state change. -/
def release_reservation (st : DBState) (order_id : Nat) : Except Err (Bool × DBState) :=
  if (active_reservations st order_id).isEmpty then Except.ok (false, st)
  else
    match releaseLoop st.stocks (active_reservations st order_id) with
    | none => Except.error Err.noResultFound
    | some stocks' =>
      Except.ok (true,
        { st with
          stocks := stocks',
          reservations := st.reservations.map (deactivate_for order_id) })

/-- Modelled from the spec: the inventory `confirm(order_id)` operation.
`order_service.process_order_payment` calls
`inventory_service.confirm_reservation`, but no such method is defined
anywhere in the source tree; the spec (section 4.2) says confirm marks the
active reservations for `order_id` inactive without touching
`available_quantity` or `reserved_quantity`.  The shape (select actives,
return false when none) mirrors `release_reservation`. -/
def confirm_reservation_spec (st : DBState) (order_id : Nat) : Bool × DBState :=
  if (active_reservations st order_id).isEmpty then (false, st)
  else
    (true,
      { st with
        reservations := st.reservations.map (deactivate_for order_id) })

/-- OrderService.get_order_by_id: `select(Order).where(Order.id == order_id)`,
`scalar_one_or_none()`. -/
def get_order_by_id (st : DBState) (order_id : Nat) : Option OrderRec :=
  st.orders.find? (fun o => o.id == order_id)

/-- Status of an order as stored, when the order exists. -/
def order_status (st : DBState) (order_id : Nat) : Option OrderStatus :=
  (get_order_by_id st order_id).map (fun o => o.status)

/-- OrderService._update_order_status: load the order; when it exists, set
its status and commit (timestamp update and metrics omitted); when it does
not exist, do nothing. -/
def update_order_status (st : DBState) (order_id : Nat) (new_status : OrderStatus) : DBState :=
  match get_order_by_id st order_id with
  | none => st
  | some _ =>
    { st with
      orders := st.orders.map (fun o =>
        if o.id == order_id then { o with status := new_status } else o) }

/-- OrderService._cancel_order_internal: returns false when the order does
not exist; otherwise releases the order's reservations (an exception there
propagates) and transitions the order to CANCELLED.  No status check is
performed on the existing order. -/
def cancel_order_internal (st : DBState) (order_id : Nat) : Except Err (Bool × DBState) :=
  match get_order_by_id st order_id with
  | none => Except.ok (false, st)
  | some _ =>
    match release_reservation st order_id with
    | Except.error e => Except.error e
    | Except.ok (_, st1) => Except.ok (true, update_order_status st1 order_id OrderStatus.cancelled)

/-- OrderService.cancel_order: delegates to `_cancel_order_internal`
(the wrapper only records metrics and re-raises). -/
def cancel_order (st : DBState) (order_id : Nat) : Except Err (Bool × DBState) :=
  cancel_order_internal st order_id

/-- OrderService.process_order_payment.  The boolean parameter is the
gateway outcome (`payment.status.value == "completed"`).  On the success
branch the source first commits the status transition to CONFIRMED and then
calls `inventory_service.confirm_reservation` — a method that does not
exist on `InventoryService`, so the attribute access raises
`AttributeError`, which the `except` clause re-raises after the CONFIRMED
commit; the reservations are left untouched.  On the failure branch the
source releases the reservations, transitions to CANCELLED and returns the
re-fetched order. -/
def process_order_payment (st : DBState) (order_id : Nat) (paymentCompleted : Bool) :
    DBState × Except Err OrderRec :=
  match get_order_by_id st order_id with
  | none => (st, Except.error Err.orderNotFound)
  | some o =>
    if o.status = OrderStatus.pending then
      if paymentCompleted then
        (update_order_status st order_id OrderStatus.confirmed, Except.error Err.attributeError)
      else
        match release_reservation st order_id with
        | Except.error e => (st, Except.error e)
        | Except.ok (_, st1) =>
          let st2 := update_order_status st1 order_id OrderStatus.cancelled
          match get_order_by_id st2 order_id with
          | some o2 => (st2, Except.ok o2)
          | none => (st2, Except.error Err.orderNotFound)
    else (st, Except.error Err.invalidStatus)

/-- Step 2 of OrderService.create_order: resolve each line's product and
freeze its unit price; the first missing product aborts with
`ProductNotFound`.  A line is `(product_id, quantity)`; the result keeps
`(product_id, quantity, unit_price)`. -/
def validate_products (st : DBState) : List (Nat × Int) → Option (List (Nat × Int × Int))
  | [] => some []
  | (pid, qty) :: rest =>
    match st.products.find? (fun p => p.id == pid) with
    | none => none
    | some p =>
      match validate_products st rest with
      | none => none
      | some tl => some ((pid, qty, p.price) :: tl)

/-- Step 3 of OrderService.create_order: `total_amount` is the sum of the
line totals `unit_price * quantity`. -/
def total_amount_of (priced : List (Nat × Int × Int)) : Int :=
  (priced.map (fun x => x.2.2 * x.2.1)).sum

/-- Steps 3 and 4 of OrderService.create_order: persist the order row with
status PENDING together with its `OrderItem` rows (two commits touching
only the order store). -/
def persist_order (st : DBState) (user_id : Nat) (priced : List (Nat × Int × Int)) : DBState :=
  { st with
    orders := st.orders ++
      [{ id := st.nextOrderId, user_id := user_id, status := OrderStatus.pending,
         total_amount := total_amount_of priced }],
    order_items := st.order_items ++ priced.map (fun x =>
      { order_id := st.nextOrderId, product_id := x.1, quantity := x.2.1,
        unit_price := x.2.2, total_price := x.2.2 * x.2.1 }),
    nextOrderId := st.nextOrderId + 1 }

/-- Step 5 of OrderService.create_order: reserve each line in sequence;
the first failed reservation stops the loop. -/
def reserveLoop (order_id : Nat) : DBState → List (Nat × Int × Int) → Bool × DBState
  | st, [] => (true, st)
  | st, (pid, qty, _) :: rest =>
    if (reserve_stock st pid qty order_id).1 then
      reserveLoop order_id (reserve_stock st pid qty order_id).2 rest
    else (false, (reserve_stock st pid qty order_id).2)

/-- OrderService.create_order: validate the user, resolve and price every
line (no emptiness or positivity check on `items`), persist the order with
status PENDING together with its items, then reserve each line.  When a
reservation fails, `_cancel_order_internal` releases whatever was reserved
and transitions the order to CANCELLED, and the `ValueError` surfaces as
`insufficientInventory` (the final `session.rollback()` undoes nothing:
every mutation before it was committed).  On success the order id is
returned (the best-effort notification is a no-op here). -/
def create_order (st : DBState) (user_id : Nat) (items : List (Nat × Int)) :
    DBState × Except Err Nat :=
  if st.users.contains user_id then
    match validate_products st items with
    | none => (st, Except.error Err.productNotFound)
    | some priced =>
      match reserveLoop st.nextOrderId (persist_order st user_id priced) priced with
      | (true, st2) => (st2, Except.ok st.nextOrderId)
      | (false, st2) =>
        match cancel_order_internal st2 st.nextOrderId with
        | Except.error e => (st2, Except.error e)
        | Except.ok (_, st3) => (st3, Except.error Err.insufficientInventory)
  else (st, Except.error Err.userNotFound)

/-- Total quantity held against stock row `sid` by a list of reservations
(used to describe the cumulative effect of the release loop). -/
def sum_quantities_for (rs : List StockReservation) (sid : Nat) : Int :=
  ((rs.filter (fun r => r.stock_id == sid)).map (fun r => r.quantity)).sum

/-- Cumulative effect of releasing the reservations `rs` on one stock row:
every quantity held against the row returns from reserved to available. -/
def add_back (rs : List StockReservation) (t : Stock) : Stock :=
  { t with
    available_quantity := t.available_quantity + sum_quantities_for rs t.id,
    reserved_quantity := t.reserved_quantity - sum_quantities_for rs t.id }

/-- The three mutators of the stock ledger named by the conservation
property: reserve, release and confirm. -/
inductive LedgerOp
  | reserve (product_id : Nat) (quantity : Int) (order_id : Nat)
  | release (order_id : Nat)
  | confirm (order_id : Nat)

/-- Run one ledger operation against the database state.  A release that
raises (`NoResultFound` inside the loop) is rolled back, so the state is
unchanged in the error case. -/
def applyOp (st : DBState) : LedgerOp → DBState
  | LedgerOp.reserve pid q oid => (reserve_stock st pid q oid).2
  | LedgerOp.release oid =>
    match release_reservation st oid with
    | Except.ok x => x.2
    | Except.error _ => st
  | LedgerOp.confirm oid => (confirm_reservation_spec st oid).2

/-- Run a sequence of ledger operations. -/
def applyOps (st : DBState) (ops : List LedgerOp) : DBState := ops.foldl applyOp st

/-
Concrete states used by the closed theorems below.  `baseState` is the
spec's section 8 scenario: order 42 is PENDING with one active reservation
of 3 units on product 9, whose stock row shows available=7, reserved=3.
-/

/-- Stock row for product 9 in the section 8 scenario. -/
def stock9 : Stock :=
  { id := 1, product_id := 9, available_quantity := 7, reserved_quantity := 3,
    reorder_level := 10 }

/-- The active reservation of 3 units held by order 42. -/
def res42 : StockReservation :=
  { id := 1, stock_id := 1, order_id := 42, quantity := 3, active := true }

/-- Order 42, PENDING. -/
def order42 : OrderRec :=
  { id := 42, user_id := 1, status := OrderStatus.pending, total_amount := 15 }

/-- The section 8 scenario state. -/
def baseState : DBState :=
  { users := [1], products := [{ id := 9, price := 5 }], stocks := [stock9],
    reservations := [res42], orders := [order42], order_items := [],
    nextOrderId := 43, nextReservationId := 2 }

/-- The same state with order 42 already CONFIRMED. -/
def confirmedState : DBState :=
  { baseState with orders := [{ order42 with status := OrderStatus.confirmed }] }

/-- C1: the claim says a successful payment on a PENDING order confirms all
active reservations, transitions the order to CONFIRMED and returns the
order without raising.  The code instead raises: after committing the
CONFIRMED transition, `process_order_payment` calls
`inventory_service.confirm_reservation`, which is defined nowhere in the
source, so the call raises `AttributeError`; the error propagates to the
caller and the reservation is never marked inactive.  This theorem
evaluates the embedded code at the failing input: the call errors, the
status is already CONFIRMED, and the reservation of order 42 is still
active. -/
theorem paymentSuccess_raises_attributeError :
    (process_order_payment baseState 42 true).2 = Except.error Err.attributeError ∧
    order_status (process_order_payment baseState 42 true).1 42 = some OrderStatus.confirmed ∧
    active_reservations (process_order_payment baseState 42 true).1 42 = [res42] := by
  refine ⟨rfl, rfl, rfl⟩

/-- C2 counterexample: the claim says `cancel_order` on a CONFIRMED order
rejects with `InvalidOrderState` and leaves status and reservations
unchanged.  On the code, cancelling CONFIRMED order 42 succeeds (returns
true), releases its active reservation and rewrites the status to
CANCELLED. -/
theorem cancel_confirmed_order_succeeds :
    (∃ st', cancel_order confirmedState 42 = Except.ok (true, st') ∧
      order_status st' 42 = some OrderStatus.cancelled ∧
      active_reservations st' 42 = []) ∧
    order_status confirmedState 42 = some OrderStatus.confirmed := by
  refine ⟨⟨{ confirmedState with
      stocks := [{ stock9 with available_quantity := 10, reserved_quantity := 0 }],
      reservations := [{ res42 with active := false }],
      orders := [{ order42 with status := OrderStatus.cancelled }] }, rfl, rfl, rfl⟩, rfl⟩

/-- C3 counterexample: the claim says that once an order reaches CONFIRMED
or CANCELLED no orchestrator call ever changes its status again.  On the
code, `cancel_order` (which never checks the current status) moves
CONFIRMED order 42 to CANCELLED. -/
theorem confirmed_status_changed_by_cancel :
    order_status confirmedState 42 = some OrderStatus.confirmed ∧
    (∃ st', cancel_order confirmedState 42 = Except.ok (true, st') ∧
      order_status st' 42 = some OrderStatus.cancelled ∧
      some OrderStatus.cancelled ≠ some OrderStatus.confirmed) := by
  refine ⟨rfl, ⟨{ confirmedState with
      stocks := [{ stock9 with available_quantity := 10, reserved_quantity := 0 }],
      reservations := [{ res42 with active := false }],
      orders := [{ order42 with status := OrderStatus.cancelled }] }, rfl, rfl, by decide⟩⟩

/-- C6 counterexample: the claim says a request with an empty items list is
rejected before any Order row is persisted.  On the code, neither the
`OrderCreate` schema (a plain `List` with unconstrained `int` quantity) nor
`create_order` validates `items`: an empty list yields a persisted order
with status PENDING and total 0, returned successfully. -/
theorem create_order_empty_items_accepted :
    ∃ st', create_order baseState 1 [] = (st', Except.ok 43) ∧
      order_status st' 43 = some OrderStatus.pending := by
  refine ⟨{ baseState with
      orders := baseState.orders ++
        [{ id := 43, user_id := 1, status := OrderStatus.pending, total_amount := 0 }],
      nextOrderId := 44 }, rfl, rfl⟩

/-
Helper lemmas about the ledger primitives.
-/

theorem release_apply_id (r : StockReservation) (t : Stock) :
    (release_apply r t).id = t.id := by
  unfold release_apply; split <;> rfl

theorem release_apply_product (r : StockReservation) (t : Stock) :
    (release_apply r t).product_id = t.product_id := by
  unfold release_apply; split <;> rfl

theorem release_apply_sum (r : StockReservation) (t : Stock) :
    (release_apply r t).available_quantity + (release_apply r t).reserved_quantity =
      t.available_quantity + t.reserved_quantity := by
  unfold release_apply; split <;> simp

theorem reserve_apply_id (sid : Nat) (q : Int) (t : Stock) :
    (reserve_apply sid q t).id = t.id := by
  unfold reserve_apply; split <;> rfl

theorem reserve_apply_product (sid : Nat) (q : Int) (t : Stock) :
    (reserve_apply sid q t).product_id = t.product_id := by
  unfold reserve_apply; split <;> rfl

theorem reserve_apply_sum (sid : Nat) (q : Int) (t : Stock) :
    (reserve_apply sid q t).available_quantity + (reserve_apply sid q t).reserved_quantity =
      t.available_quantity + t.reserved_quantity := by
  unfold reserve_apply; split <;> simp

theorem sum_quantities_for_nil (sid : Nat) : sum_quantities_for [] sid = 0 := rfl

theorem sum_quantities_for_cons (r : StockReservation) (rs : List StockReservation) (sid : Nat) :
    sum_quantities_for (r :: rs) sid =
      (if r.stock_id == sid then r.quantity else 0) + sum_quantities_for rs sid := by
  unfold sum_quantities_for
  rw [List.filter_cons]
  split <;> simp

theorem add_back_nil (t : Stock) : add_back [] t = t := by
  cases t; simp [add_back, sum_quantities_for_nil]

theorem add_back_cons (r : StockReservation) (rs : List StockReservation) (t : Stock) :
    add_back rs (release_apply r t) = add_back (r :: rs) t := by
  by_cases h : t.id = r.stock_id
  · have hbeq1 : (t.id == r.stock_id) = true := by simp [h]
    have hbeq2 : (r.stock_id == t.id) = true := by simp [h]
    cases t
    simp only [release_apply, add_back, sum_quantities_for_cons, hbeq1, hbeq2, if_true,
      Stock.mk.injEq, true_and, and_true]
    exact ⟨by ring, by ring⟩
  · have hbeq1 : (t.id == r.stock_id) = false := by simp [h]
    have hbeq2 : (r.stock_id == t.id) = false := by
      simp only [beq_eq_false_iff_ne]; exact fun hc => h hc.symm
    cases t
    simp [release_apply, add_back, sum_quantities_for_cons, hbeq1, hbeq2]

theorem releaseLoop_eq (rs : List StockReservation) :
    ∀ stocks : List Stock, (∀ r ∈ rs, ∃ s ∈ stocks, s.id = r.stock_id) →
      releaseLoop stocks rs = some (stocks.map (add_back rs)) := by
  induction rs with
  | nil =>
    intro stocks _
    have : stocks.map (add_back []) = stocks := by
      calc stocks.map (add_back []) = stocks.map id :=
            List.map_congr_left (fun t _ => add_back_nil t)
        _ = stocks := List.map_id stocks
    rw [releaseLoop, this]
  | cons r rs ih =>
    intro stocks hex
    obtain ⟨s, hs, hid⟩ := hex r (List.mem_cons_self r rs)
    have hfind : (stocks.find? (fun s => s.id == r.stock_id)).isSome := by
      rw [List.find?_isSome]
      exact ⟨s, hs, by simp [hid]⟩
    obtain ⟨s₀, hs₀⟩ := Option.isSome_iff_exists.mp hfind
    have hone : releaseOne stocks r = some (stocks.map (release_apply r)) := by
      unfold releaseOne; rw [hs₀]
    have hex' : ∀ r' ∈ rs, ∃ s' ∈ stocks.map (release_apply r), s'.id = r'.stock_id := by
      intro r' hr'
      obtain ⟨s', hs', hid'⟩ := hex r' (List.mem_cons_of_mem r hr')
      exact ⟨release_apply r s', List.mem_map_of_mem _ hs', by rw [release_apply_id]; exact hid'⟩
    rw [releaseLoop, hone]
    show releaseLoop (stocks.map (release_apply r)) rs = some (stocks.map (add_back (r :: rs)))
    rw [ih _ hex', List.map_map]
    congr 1
    exact List.map_congr_left (fun t _ => add_back_cons r rs t)

theorem map_add_back_nil (l : List Stock) : l.map (add_back []) = l := by
  calc l.map (add_back []) = l.map id := List.map_congr_left (fun t _ => add_back_nil t)
    _ = l := List.map_id l

theorem filter_deactivate_eq_nil (l : List StockReservation) (oid : Nat) :
    (l.map (deactivate_for oid)).filter (fun r => r.order_id == oid && r.active) = [] := by
  rw [List.filter_eq_nil_iff]
  intro a ha
  obtain ⟨r, _, rfl⟩ := List.mem_map.mp ha
  unfold deactivate_for
  split
  · simp
  · next h => simpa using h

/-- When every active reservation of the order points at an existing stock
row, `release_reservation` commits: the stocks absorb the released
quantities, the order's active reservations vanish, and every other table
is untouched. -/
theorem release_reservation_ok (st : DBState) (oid : Nat)
    (hex : ∀ r ∈ active_reservations st oid, ∃ s ∈ st.stocks, s.id = r.stock_id) :
    ∃ b st1, release_reservation st oid = Except.ok (b, st1) ∧
      st1.stocks = st.stocks.map (add_back (active_reservations st oid)) ∧
      active_reservations st1 oid = [] ∧
      st1.orders = st.orders ∧ st1.users = st.users ∧ st1.products = st.products ∧
      st1.order_items = st.order_items ∧ st1.nextOrderId = st.nextOrderId ∧
      st1.nextReservationId = st.nextReservationId := by
  by_cases hE : (active_reservations st oid).isEmpty
  · have h0 : active_reservations st oid = [] := by
      simpa using hE
    refine ⟨false, st, ?_, ?_, h0, rfl, rfl, rfl, rfl, rfl, rfl⟩
    · unfold release_reservation
      simp [hE]
    · rw [h0, map_add_back_nil]
  · refine ⟨true,
      { st with
        stocks := st.stocks.map (add_back (active_reservations st oid)),
        reservations := st.reservations.map (deactivate_for oid) },
      ?_, rfl, ?_, rfl, rfl, rfl, rfl, rfl, rfl⟩
    · unfold release_reservation
      simp only [hE, Bool.false_eq_true, if_false]
      rw [releaseLoop_eq _ _ hex]
    · exact filter_deactivate_eq_nil st.reservations oid

theorem update_order_status_fields (st : DBState) (oid : Nat) (ns : OrderStatus) :
    (update_order_status st oid ns).reservations = st.reservations ∧
    (update_order_status st oid ns).stocks = st.stocks ∧
    (update_order_status st oid ns).users = st.users ∧
    (update_order_status st oid ns).products = st.products ∧
    (update_order_status st oid ns).order_items = st.order_items ∧
    (update_order_status st oid ns).nextOrderId = st.nextOrderId ∧
    (update_order_status st oid ns).nextReservationId = st.nextReservationId := by
  unfold update_order_status
  cases h : get_order_by_id st oid <;> simp

/-- Updating the status of an existing order makes `order_status` read the
new status back. -/
theorem order_status_update_self (st : DBState) (oid : Nat) (ns : OrderStatus) (o : OrderRec)
    (h : get_order_by_id st oid = some o) :
    order_status (update_order_status st oid ns) oid = some ns := by
  have hfind : st.orders.find? (fun o' => o'.id == oid) = some o := h
  have hbeq0 := List.find?_some hfind
  have hbeq : (o.id == oid) = true := by simpa using hbeq0
  unfold update_order_status
  rw [h]
  unfold order_status get_order_by_id
  simp only [List.find?_map]
  have hpf : ((fun (o' : OrderRec) => o'.id == oid) ∘
      (fun o' => if o'.id == oid then { o' with status := ns } else o')) =
      fun (o' : OrderRec) => o'.id == oid := by
    funext o'
    by_cases hid : o'.id = oid <;> simp [hid]
  rw [hpf]
  have h' : st.orders.find? (fun o' => o'.id == oid) = some o := h
  rw [h']
  have hid' : o.id = oid := by simpa using hbeq
  simp [hid']

/-- C9: releasing an order's reservations is idempotent on the stock state:
whenever `release_reservation` returns (i.e. does not raise), a second call
on the resulting state finds no active reservations, mutates nothing, and
returns false. -/
theorem release_reservation_idempotent (st : DBState) (oid : Nat) (b : Bool) (st1 : DBState)
    (h : release_reservation st oid = Except.ok (b, st1)) :
    release_reservation st1 oid = Except.ok (false, st1) := by
  unfold release_reservation at h
  by_cases hE : (active_reservations st oid).isEmpty
  · rw [if_pos hE] at h
    simp only [Except.ok.injEq, Prod.mk.injEq] at h
    obtain ⟨-, hst⟩ := h
    subst hst
    unfold release_reservation
    rw [if_pos hE]
  · rw [if_neg hE] at h
    cases hL : releaseLoop st.stocks (active_reservations st oid) with
    | none => rw [hL] at h; exact absurd h (by simp)
    | some stocks' =>
      rw [hL] at h
      simp only [Except.ok.injEq, Prod.mk.injEq] at h
      obtain ⟨-, hst⟩ := h
      subst hst
      unfold release_reservation
      have hact : active_reservations
          { st with
            stocks := stocks',
            reservations := st.reservations.map (deactivate_for oid) } oid = [] :=
        filter_deactivate_eq_nil st.reservations oid
      rw [hact]
      rfl

/-- Applying `release_reservation_idempotent` at the section 8 scenario
state: the first release of order 42 succeeds and the second is a no-op
returning false. -/
theorem release_reservation_idempotent_witness :
    release_reservation
      { baseState with
        stocks := [{ stock9 with available_quantity := 10, reserved_quantity := 0 }],
        reservations := [{ res42 with active := false }] } 42 =
      Except.ok (false,
        { baseState with
          stocks := [{ stock9 with available_quantity := 10, reserved_quantity := 0 }],
          reservations := [{ res42 with active := false }] }) :=
  release_reservation_idempotent baseState 42 true _ rfl

/-- Shared consequence of `_cancel_order_internal` on an existing order
(any status): reservations are released, the order becomes CANCELLED. -/
theorem cancel_internal_existing (st : DBState) (oid : Nat) (o : OrderRec)
    (h : get_order_by_id st oid = some o)
    (hex : ∀ r ∈ active_reservations st oid, ∃ s ∈ st.stocks, s.id = r.stock_id) :
    ∃ st', cancel_order_internal st oid = Except.ok (true, st') ∧
      order_status st' oid = some OrderStatus.cancelled ∧
      active_reservations st' oid = [] ∧
      st'.stocks = st.stocks.map (add_back (active_reservations st oid)) ∧
      st'.users = st.users ∧ st'.products = st.products ∧
      st'.order_items = st.order_items ∧ st'.nextOrderId = st.nextOrderId ∧
      st'.nextReservationId = st.nextReservationId := by
  obtain ⟨b, st1, hrel, hstocks, hact, hord, hus, hpr, hit, hni, hnr⟩ :=
    release_reservation_ok st oid hex
  have h1 : get_order_by_id st1 oid = some o := by
    unfold get_order_by_id
    rw [hord]
    exact h
  have hfields := update_order_status_fields st1 oid OrderStatus.cancelled
  refine ⟨update_order_status st1 oid OrderStatus.cancelled, ?_, ?_, ?_, ?_, ?_, ?_, ?_, ?_, ?_⟩
  · unfold cancel_order_internal
    rw [h, hrel]
  · exact order_status_update_self st1 oid OrderStatus.cancelled o h1
  · unfold active_reservations
    rw [hfields.1]
    exact hact
  · rw [hfields.2.1, hstocks]
  · rw [hfields.2.2.1, hus]
  · rw [hfields.2.2.2.1, hpr]
  · rw [hfields.2.2.2.2.1, hit]
  · rw [hfields.2.2.2.2.2.1, hni]
  · rw [hfields.2.2.2.2.2.2, hnr]

/-- C2 (amended): `cancel_order` returns false exactly when the order does
not exist; for every existing order — regardless of its status, including
CONFIRMED and CANCELLED — it releases all active reservations, transitions
the order to CANCELLED and returns true; no InvalidOrderState rejection
exists in the code. -/
theorem cancel_order_semantics (st : DBState) (oid : Nat) :
    (get_order_by_id st oid = none → cancel_order st oid = Except.ok (false, st)) ∧
    (∀ o, get_order_by_id st oid = some o →
      (∀ r ∈ active_reservations st oid, ∃ s ∈ st.stocks, s.id = r.stock_id) →
      ∃ st', cancel_order st oid = Except.ok (true, st') ∧
        order_status st' oid = some OrderStatus.cancelled ∧
        active_reservations st' oid = []) := by
  constructor
  · intro h
    unfold cancel_order cancel_order_internal
    rw [h]
  · intro o h hex
    obtain ⟨st', hcan, hstat, hact, -⟩ := cancel_internal_existing st oid o h hex
    exact ⟨st', hcan, hstat, hact⟩

/-- Applying `cancel_order_semantics` to the section 8 scenario state:
cancelling existing PENDING order 42 succeeds and cancels it. -/
theorem cancel_order_semantics_witness :
    ∃ st', cancel_order baseState 42 = Except.ok (true, st') ∧
      order_status st' 42 = some OrderStatus.cancelled ∧
      active_reservations st' 42 = [] :=
  (cancel_order_semantics baseState 42).2 order42 rfl (by decide)

/-- C3 (amended): status monotonicity holds for `process_payment` — an
order whose status is not PENDING is rejected with an invalid-state error
and the whole state is left unchanged — but not for `cancel_order`, which
transitions even a CONFIRMED order to CANCELLED. -/
theorem status_monotonicity_payment_only :
    (∀ (st : DBState) (oid : Nat) (b : Bool) (o : OrderRec),
      get_order_by_id st oid = some o → o.status ≠ OrderStatus.pending →
      process_order_payment st oid b = (st, Except.error Err.invalidStatus)) ∧
    (∀ (st : DBState) (oid : Nat) (o : OrderRec),
      get_order_by_id st oid = some o → o.status = OrderStatus.confirmed →
      (∀ r ∈ active_reservations st oid, ∃ s ∈ st.stocks, s.id = r.stock_id) →
      ∃ st', cancel_order st oid = Except.ok (true, st') ∧
        order_status st' oid = some OrderStatus.cancelled) := by
  constructor
  · intro st oid b o h hne
    unfold process_order_payment
    rw [h]
    simp only [if_neg hne]
  · intro st oid o h _ hex
    obtain ⟨st', hcan, hstat, -⟩ := cancel_internal_existing st oid o h hex
    exact ⟨st', hcan, hstat⟩

/-- Applying `status_monotonicity_payment_only` at the scenario state with
order 42 CONFIRMED: payment processing rejects it without mutation, while
cancellation moves it to CANCELLED. -/
theorem status_monotonicity_payment_only_witness :
    process_order_payment confirmedState 42 true =
      (confirmedState, Except.error Err.invalidStatus) ∧
    (∃ st', cancel_order confirmedState 42 = Except.ok (true, st') ∧
      order_status st' 42 = some OrderStatus.cancelled) :=
  ⟨status_monotonicity_payment_only.1 confirmedState 42 true
      { order42 with status := OrderStatus.confirmed } rfl (by decide),
    status_monotonicity_payment_only.2 confirmedState 42
      { order42 with status := OrderStatus.confirmed } rfl rfl (by decide)⟩

/-- C7: a failed payment on an existing PENDING order releases every active
reservation of the order — each stock row's `available_quantity` gains and
`reserved_quantity` loses the total quantity the order held against it
(`add_back`), the reservations become inactive — the order transitions to
CANCELLED, and the updated (cancelled) order is returned without error. -/
theorem payment_failure_releases_and_cancels (st : DBState) (oid : Nat) (o : OrderRec)
    (h : get_order_by_id st oid = some o) (hp : o.status = OrderStatus.pending)
    (hex : ∀ r ∈ active_reservations st oid, ∃ s ∈ st.stocks, s.id = r.stock_id) :
    ∃ st' o', process_order_payment st oid false = (st', Except.ok o') ∧
      o'.status = OrderStatus.cancelled ∧
      order_status st' oid = some OrderStatus.cancelled ∧
      active_reservations st' oid = [] ∧
      st'.stocks = st.stocks.map (add_back (active_reservations st oid)) := by
  obtain ⟨b, st1, hrel, hstocks, hact, hord, -, -, -, -, -⟩ :=
    release_reservation_ok st oid hex
  have h1 : get_order_by_id st1 oid = some o := by
    unfold get_order_by_id
    rw [hord]
    exact h
  have hfields := update_order_status_fields st1 oid OrderStatus.cancelled
  have hstat : order_status (update_order_status st1 oid OrderStatus.cancelled) oid =
      some OrderStatus.cancelled :=
    order_status_update_self st1 oid OrderStatus.cancelled o h1
  obtain ⟨o2, ho2, ho2s⟩ : ∃ o2,
      get_order_by_id (update_order_status st1 oid OrderStatus.cancelled) oid = some o2 ∧
      o2.status = OrderStatus.cancelled := by
    unfold order_status at hstat
    obtain ⟨o2, ho2, ho2s⟩ := Option.map_eq_some'.mp hstat
    exact ⟨o2, ho2, ho2s⟩
  refine ⟨update_order_status st1 oid OrderStatus.cancelled, o2, ?_, ho2s, hstat, ?_, ?_⟩
  · unfold process_order_payment
    rw [h]
    simp only [if_pos hp, Bool.false_eq_true, if_false]
    rw [hrel]
    simp only [ho2]
  · unfold active_reservations
    rw [hfields.1]
    exact hact
  · rw [hfields.2.1, hstocks]

/-- Applying `payment_failure_releases_and_cancels` at the spec's section 8
scenario: order 42 holds 3 reserved units of product 9 at available=7,
reserved=3; the failed payment cancels the order and product 9 returns to
available=10, reserved=0. -/
theorem payment_failure_releases_and_cancels_witness :
    (∃ st' o', process_order_payment baseState 42 false = (st', Except.ok o') ∧
      o'.status = OrderStatus.cancelled ∧
      order_status st' 42 = some OrderStatus.cancelled ∧
      active_reservations st' 42 = [] ∧
      st'.stocks = baseState.stocks.map (add_back (active_reservations baseState 42))) ∧
    (process_order_payment baseState 42 false).1.stocks =
      [{ stock9 with available_quantity := 10, reserved_quantity := 0 }] :=
  ⟨payment_failure_releases_and_cancels baseState 42 order42 rfl rfl (by decide), rfl⟩

theorem reserve_stock_none (st : DBState) (pid : Nat) (q : Int) (oid : Nat)
    (h : get_stock_by_product_id st pid = none) :
    reserve_stock st pid q oid = (false, st) := by
  unfold reserve_stock
  rw [h]

theorem reserve_stock_insufficient (st : DBState) (pid : Nat) (q : Int) (oid : Nat)
    (s : Stock) (h : get_stock_by_product_id st pid = some s)
    (hlt : s.available_quantity < q) :
    reserve_stock st pid q oid = (false, st) := by
  unfold reserve_stock
  rw [h]
  simp only [if_pos hlt]

theorem reserve_stock_success (st : DBState) (pid : Nat) (q : Int) (oid : Nat)
    (s : Stock) (h : get_stock_by_product_id st pid = some s)
    (hge : ¬ s.available_quantity < q) :
    reserve_stock st pid q oid = (true,
      { st with
        stocks := st.stocks.map (reserve_apply s.id q),
        reservations := st.reservations ++
          [{ id := st.nextReservationId, stock_id := s.id, order_id := oid,
             quantity := q, active := true }],
        nextReservationId := st.nextReservationId + 1 }) := by
  unfold reserve_stock
  rw [h]
  simp only [if_neg hge]

theorem find?_product_map_reserve (stocks : List Stock) (pid sid : Nat) (q : Int) :
    (stocks.map (reserve_apply sid q)).find? (fun t => t.product_id == pid) =
      (stocks.find? (fun t => t.product_id == pid)).map (reserve_apply sid q) := by
  rw [List.find?_map]
  have hp : ((fun t : Stock => t.product_id == pid) ∘ reserve_apply sid q) =
      fun t : Stock => t.product_id == pid := by
    funext t
    simp [Function.comp, reserve_apply_product]
  rw [hp]

theorem get_stock_after_success (st : DBState) (pid : Nat) (q : Int) (oid : Nat)
    (s : Stock) (h : get_stock_by_product_id st pid = some s)
    (hge : ¬ s.available_quantity < q) :
    get_stock_by_product_id (reserve_stock st pid q oid).2 pid =
      some { s with available_quantity := s.available_quantity - q,
                    reserved_quantity := s.reserved_quantity + q } := by
  rw [reserve_stock_success st pid q oid s h hge]
  unfold get_stock_by_product_id
  rw [show ({ st with
        stocks := st.stocks.map (reserve_apply s.id q),
        reservations := st.reservations ++
          [{ id := st.nextReservationId, stock_id := s.id, order_id := oid,
             quantity := q, active := true }],
        nextReservationId := st.nextReservationId + 1 } : DBState).stocks =
      st.stocks.map (reserve_apply s.id q) from rfl]
  rw [find?_product_map_reserve]
  rw [show st.stocks.find? (fun t => t.product_id == pid) = some s from h]
  simp [reserve_apply]

/-- C5: `reserve_stock` returns false and mutates nothing when the product
has no stock row or availability is below the request; otherwise it moves
`quantity` from available to reserved on the product's stock row, appends
one new active reservation linked to the order, and returns true. -/
theorem reserve_stock_semantics (st : DBState) (pid : Nat) (q : Int) (oid : Nat) :
    (get_stock_by_product_id st pid = none → reserve_stock st pid q oid = (false, st)) ∧
    (∀ s, get_stock_by_product_id st pid = some s →
      (s.available_quantity < q → reserve_stock st pid q oid = (false, st)) ∧
      (¬ s.available_quantity < q →
        reserve_stock st pid q oid = (true,
          { st with
            stocks := st.stocks.map (reserve_apply s.id q),
            reservations := st.reservations ++
              [{ id := st.nextReservationId, stock_id := s.id, order_id := oid,
                 quantity := q, active := true }],
            nextReservationId := st.nextReservationId + 1 }) ∧
        get_stock_by_product_id (reserve_stock st pid q oid).2 pid =
          some { s with available_quantity := s.available_quantity - q,
                        reserved_quantity := s.reserved_quantity + q })) := by
  refine ⟨reserve_stock_none st pid q oid, fun s h => ⟨reserve_stock_insufficient st pid q oid s h, fun hge => ⟨reserve_stock_success st pid q oid s h hge, get_stock_after_success st pid q oid s h hge⟩⟩⟩

/-- Applying `reserve_stock_semantics` at the scenario state: a missing
stock row (product 8) fails without mutation, an excessive request (100 of
product 9) fails without mutation, and a satisfiable request (2 of
product 9) succeeds. -/
theorem reserve_stock_semantics_witness :
    reserve_stock baseState 8 1 50 = (false, baseState) ∧
    reserve_stock baseState 9 100 50 = (false, baseState) ∧
    (reserve_stock baseState 9 2 50).1 = true := by
  refine ⟨(reserve_stock_semantics baseState 8 1 50).1 rfl,
    ((reserve_stock_semantics baseState 9 100 50).2 stock9 rfl).1 (by decide), ?_⟩
  have h := (((reserve_stock_semantics baseState 9 2 50).2 stock9 rfl).2 (by decide)).1
  rw [h]

/-- C10: `reserve_stock` imposes no positivity on the quantity: whenever a
stock row exists and `quantity ≤ available_quantity` — including zero and
negative quantities — the availability check passes, an active reservation
for that quantity is inserted and the call returns true; a negative
quantity strictly increases `available_quantity` and strictly decreases
`reserved_quantity`, inflating apparent stock. -/
theorem reserve_stock_accepts_nonpositive (st : DBState) (pid : Nat) (q : Int) (oid : Nat)
    (s : Stock) (h : get_stock_by_product_id st pid = some s)
    (hq : q ≤ s.available_quantity) :
    (reserve_stock st pid q oid).1 = true ∧
    (reserve_stock st pid q oid).2.reservations = st.reservations ++
      [{ id := st.nextReservationId, stock_id := s.id, order_id := oid,
         quantity := q, active := true }] ∧
    get_stock_by_product_id (reserve_stock st pid q oid).2 pid =
      some { s with available_quantity := s.available_quantity - q,
                    reserved_quantity := s.reserved_quantity + q } ∧
    (q < 0 → s.available_quantity < s.available_quantity - q ∧
      s.reserved_quantity + q < s.reserved_quantity) := by
  have hge : ¬ s.available_quantity < q := not_lt.mpr hq
  have hsucc := reserve_stock_success st pid q oid s h hge
  refine ⟨by rw [hsucc], by rw [hsucc], get_stock_after_success st pid q oid s h hge, ?_⟩
  intro hneg
  omega

/-- Applying `reserve_stock_accepts_nonpositive` with quantity -4 against
product 9 (available 7, reserved 3): the reservation is accepted and the
stock row moves to available 11, reserved -1. -/
theorem reserve_stock_accepts_nonpositive_witness :
    (reserve_stock baseState 9 (-4) 50).1 = true ∧
    (reserve_stock baseState 9 (-4) 50).2.reservations = baseState.reservations ++
      [{ id := baseState.nextReservationId, stock_id := stock9.id, order_id := 50,
         quantity := -4, active := true }] ∧
    get_stock_by_product_id (reserve_stock baseState 9 (-4) 50).2 9 =
      some { stock9 with available_quantity := stock9.available_quantity - (-4),
                         reserved_quantity := stock9.reserved_quantity + (-4) } ∧
    ((-4 : Int) < 0 → stock9.available_quantity < stock9.available_quantity - (-4) ∧
      stock9.reserved_quantity + (-4) < stock9.reserved_quantity) :=
  reserve_stock_accepts_nonpositive baseState 9 (-4) 50 stock9 rfl (by decide)

theorem releaseOne_eq (stocks : List Stock) (r : StockReservation) (stocks1 : List Stock)
    (h : releaseOne stocks r = some stocks1) : stocks1 = stocks.map (release_apply r) := by
  unfold releaseOne at h
  cases hf : stocks.find? (fun s => s.id == r.stock_id) with
  | none => rw [hf] at h; exact absurd h (by simp)
  | some s => rw [hf] at h; simpa using h.symm

theorem releaseLoop_sum (rs : List StockReservation) :
    ∀ (stocks stocks' : List Stock), releaseLoop stocks rs = some stocks' →
      stocks'.map (fun s => (s.product_id, s.available_quantity + s.reserved_quantity)) =
        stocks.map (fun s => (s.product_id, s.available_quantity + s.reserved_quantity)) := by
  induction rs with
  | nil =>
    intro stocks stocks' h
    unfold releaseLoop at h
    simp only [Option.some.injEq] at h
    rw [h]
  | cons r rs ih =>
    intro stocks stocks' h
    unfold releaseLoop at h
    cases ho : releaseOne stocks r with
    | none => rw [ho] at h; exact absurd h (by simp)
    | some stocks1 =>
      rw [ho] at h
      have h1 := releaseOne_eq stocks r stocks1 ho
      subst h1
      rw [ih _ _ h, List.map_map]
      apply List.map_congr_left
      intro t _
      simp [Function.comp, release_apply_product, release_apply_sum]

theorem applyOp_sum (st : DBState) (op : LedgerOp) :
    (applyOp st op).stocks.map
        (fun s => (s.product_id, s.available_quantity + s.reserved_quantity)) =
      st.stocks.map (fun s => (s.product_id, s.available_quantity + s.reserved_quantity)) := by
  cases op with
  | reserve pid q oid =>
    show (reserve_stock st pid q oid).2.stocks.map _ = _
    cases hs : get_stock_by_product_id st pid with
    | none => rw [reserve_stock_none st pid q oid hs]
    | some s =>
      by_cases hlt : s.available_quantity < q
      · rw [reserve_stock_insufficient st pid q oid s hs hlt]
      · rw [reserve_stock_success st pid q oid s hs hlt]
        show (st.stocks.map (reserve_apply s.id q)).map _ = _
        rw [List.map_map]
        apply List.map_congr_left
        intro t _
        simp [Function.comp, reserve_apply_product, reserve_apply_sum]
  | release oid =>
    show (match release_reservation st oid with
      | Except.ok x => x.2
      | Except.error _ => st).stocks.map _ = _
    unfold release_reservation
    by_cases hE : (active_reservations st oid).isEmpty
    · rw [if_pos hE]
    · rw [if_neg hE]
      cases hL : releaseLoop st.stocks (active_reservations st oid) with
      | none => rfl
      | some stocks' =>
        exact releaseLoop_sum (active_reservations st oid) st.stocks stocks' hL
  | confirm oid =>
    show (confirm_reservation_spec st oid).2.stocks.map _ = _
    unfold confirm_reservation_spec
    by_cases hE : (active_reservations st oid).isEmpty
    · rw [if_pos hE]
    · rw [if_neg hE]

/-- C8: for every stock row, `available_quantity + reserved_quantity` is
invariant under every sequence of reserve, release and confirm operations:
reserve moves quantity from available to reserved, release moves it back
exactly, and confirm touches neither field (confirm modelled from the spec,
`confirm_reservation_spec`, since the source defines no confirm method).
The full per-product list of sums is preserved. -/
theorem stock_sum_conserved (st : DBState) (ops : List LedgerOp) :
    (applyOps st ops).stocks.map
        (fun s => (s.product_id, s.available_quantity + s.reserved_quantity)) =
      st.stocks.map (fun s => (s.product_id, s.available_quantity + s.reserved_quantity)) := by
  induction ops generalizing st with
  | nil => rfl
  | cons op ops ih =>
    show (applyOps (applyOp st op) ops).stocks.map _ = _
    rw [ih (applyOp st op), applyOp_sum]

theorem find?_orders_append_fresh (l : List OrderRec) (o : OrderRec) (oid : Nat)
    (hfresh : ∀ x ∈ l, x.id ≠ oid) (ho : o.id = oid) :
    (l ++ [o]).find? (fun x => x.id == oid) = some o := by
  rw [List.find?_append]
  have h0 : l.find? (fun x => x.id == oid) = none := by
    rw [List.find?_eq_none]
    intro x hx
    simpa using hfresh x hx
  rw [h0]
  simp [List.find?, ho]

theorem filter_active_nil (l : List StockReservation) (oid : Nat)
    (h : ∀ r ∈ l, r.order_id ≠ oid) :
    l.filter (fun r => r.order_id == oid && r.active) = [] := by
  rw [List.filter_eq_nil_iff]
  intro r hr
  simp [h r hr]

theorem filter_active_self (l : List StockReservation) (oid : Nat)
    (h : ∀ r ∈ l, r.order_id = oid ∧ r.active = true) :
    l.filter (fun r => r.order_id == oid && r.active) = l := by
  rw [List.filter_eq_self]
  intro r hr
  simp [(h r hr).1, (h r hr).2]

theorem validate_products_quantities (st : DBState) :
    ∀ (items : List (Nat × Int)) (priced : List (Nat × Int × Int)),
      validate_products st items = some priced →
      priced.map (fun x => x.2.1) = items.map (fun i => i.2) := by
  intro items
  induction items with
  | nil =>
    intro priced h
    unfold validate_products at h
    simp only [Option.some.injEq] at h
    rw [← h]
    rfl
  | cons hd tl ih =>
    intro priced h
    obtain ⟨pid, qty⟩ := hd
    unfold validate_products at h
    cases hp : st.products.find? (fun p => p.id == pid) with
    | none => rw [hp] at h; exact absurd h (by simp)
    | some p =>
      rw [hp] at h
      cases hv : validate_products st tl with
      | none => rw [hv] at h; exact absurd h (by simp)
      | some tlp =>
        rw [hv] at h
        simp only [Option.some.injEq] at h
        rw [← h]
        simp [ih tlp hv]

/-- C6 (amended): `create_order` performs no emptiness or positivity
validation on `items` (nor does the `OrderCreate` schema): an empty items
list yields a persisted PENDING order with no items and no new
reservations, and a single line with `quantity ≤ 0` for an existing
product with a stock record is accepted — the order is persisted PENDING
and an active reservation for the non-positive quantity is inserted. -/
theorem create_order_accepts_invalid_items :
    (∀ (st : DBState) (uid : Nat), st.users.contains uid = true →
      (∀ o ∈ st.orders, o.id ≠ st.nextOrderId) →
      ∃ st', create_order st uid [] = (st', Except.ok st.nextOrderId) ∧
        order_status st' st.nextOrderId = some OrderStatus.pending ∧
        st'.reservations = st.reservations ∧ st'.stocks = st.stocks) ∧
    (∀ (st : DBState) (uid pid : Nat) (q : Int) (p : ProductRec) (s : Stock),
      q ≤ 0 → st.users.contains uid = true →
      st.products.find? (fun x => x.id == pid) = some p →
      get_stock_by_product_id st pid = some s →
      0 ≤ s.available_quantity →
      (∀ o ∈ st.orders, o.id ≠ st.nextOrderId) →
      (∀ r ∈ st.reservations, r.order_id ≠ st.nextOrderId) →
      ∃ st', create_order st uid [(pid, q)] = (st', Except.ok st.nextOrderId) ∧
        order_status st' st.nextOrderId = some OrderStatus.pending ∧
        active_reservations st' st.nextOrderId =
          [{ id := st.nextReservationId, stock_id := s.id, order_id := st.nextOrderId,
             quantity := q, active := true }]) := by
  constructor
  · intro st uid hc h1
    refine ⟨persist_order st uid [], ?_, ?_, rfl, rfl⟩
    · unfold create_order
      rw [if_pos hc]
      rfl
    · unfold order_status get_order_by_id persist_order
      simp only
      rw [find?_orders_append_fresh st.orders _ st.nextOrderId h1 rfl]
      rfl
  · intro st uid pid q p s hq hc hp hs hav h1 h2
    have hval : validate_products st [(pid, q)] = some [(pid, q, p.price)] := by
      unfold validate_products
      rw [hp]
      rfl
    have hs1 : get_stock_by_product_id (persist_order st uid [(pid, q, p.price)]) pid =
        some s := hs
    have hge : ¬ s.available_quantity < q := not_lt.mpr (le_trans hq hav)
    have hres := reserve_stock_success (persist_order st uid [(pid, q, p.price)]) pid q
      st.nextOrderId s hs1 hge
    have hloop : reserveLoop st.nextOrderId (persist_order st uid [(pid, q, p.price)])
        [(pid, q, p.price)] =
        (true, (reserve_stock (persist_order st uid [(pid, q, p.price)]) pid q
          st.nextOrderId).2) := by
      unfold reserveLoop
      rw [hres]
      rfl
    refine ⟨(reserve_stock (persist_order st uid [(pid, q, p.price)]) pid q st.nextOrderId).2,
      ?_, ?_, ?_⟩
    · unfold create_order
      rw [if_pos hc]
      simp only [hval, hloop]
    · rw [hres]
      unfold order_status get_order_by_id persist_order
      simp only
      rw [find?_orders_append_fresh st.orders _ st.nextOrderId h1 rfl]
      rfl
    · rw [hres]
      unfold active_reservations persist_order
      simp only
      rw [List.filter_append, filter_active_nil st.reservations st.nextOrderId h2]
      simp

/-- Applying `create_order_accepts_invalid_items` at the scenario state: an
empty order for user 1 is accepted and persisted PENDING, and an order of
-4 units of product 9 is accepted with an active reservation of -4. -/
theorem create_order_accepts_invalid_items_witness :
    (∃ st', create_order baseState 1 [] = (st', Except.ok 43) ∧
      order_status st' 43 = some OrderStatus.pending ∧
      st'.reservations = baseState.reservations ∧ st'.stocks = baseState.stocks) ∧
    (∃ st', create_order baseState 1 [(9, -4)] = (st', Except.ok 43) ∧
      order_status st' 43 = some OrderStatus.pending ∧
      active_reservations st' 43 =
        [{ id := 2, stock_id := 1, order_id := 43, quantity := -4, active := true }]) :=
  ⟨create_order_accepts_invalid_items.1 baseState 1 rfl (by decide),
    create_order_accepts_invalid_items.2 baseState 1 9 (-4) { id := 9, price := 5 } stock9
      (by decide) rfl rfl rfl (by decide) (by decide) (by decide)⟩

theorem reserve_stock_false_state (st : DBState) (pid : Nat) (q : Int) (oid : Nat)
    (h : (reserve_stock st pid q oid).1 = false) :
    (reserve_stock st pid q oid).2 = st := by
  cases hs : get_stock_by_product_id st pid with
  | none => rw [reserve_stock_none st pid q oid hs]
  | some s =>
    by_cases hlt : s.available_quantity < q
    · rw [reserve_stock_insufficient st pid q oid s hs hlt]
    · rw [reserve_stock_success st pid q oid s hs hlt] at h
      exact absurd h (by simp)

theorem reserve_stock_true_inv (st : DBState) (pid : Nat) (q : Int) (oid : Nat)
    (h : (reserve_stock st pid q oid).1 = true) :
    ∃ s, get_stock_by_product_id st pid = some s ∧ ¬ s.available_quantity < q := by
  cases hs : get_stock_by_product_id st pid with
  | none =>
    rw [reserve_stock_none st pid q oid hs] at h
    exact absurd h (by simp)
  | some s =>
    by_cases hlt : s.available_quantity < q
    · rw [reserve_stock_insufficient st pid q oid s hs hlt] at h
      exact absurd h (by simp)
    · exact ⟨s, rfl, hlt⟩

/-- Invariant of the reservation loop of `create_order`: orders and stock
ids are untouched, the reservations grow by a block of active reservations
for the order — each pointing at a stock row that exists in the final
state — and on full success the block holds one reservation per line, with
the lines' quantities in order. -/
theorem reserveLoop_props (oid : Nat) (priced : List (Nat × Int × Int)) :
    ∀ st : DBState,
      (reserveLoop oid st priced).2.orders = st.orders ∧
      (reserveLoop oid st priced).2.stocks.map (fun s => s.id) =
        st.stocks.map (fun s => s.id) ∧
      ∃ newRs,
        (reserveLoop oid st priced).2.reservations = st.reservations ++ newRs ∧
        (∀ r ∈ newRs, r.order_id = oid ∧ r.active = true ∧
          ∃ s ∈ (reserveLoop oid st priced).2.stocks, s.id = r.stock_id) ∧
        ((reserveLoop oid st priced).1 = true →
          newRs.map (fun r => r.quantity) = priced.map (fun x => x.2.1)) := by
  induction priced with
  | nil =>
    intro st
    exact ⟨rfl, rfl, [], (List.append_nil _).symm, by simp, fun _ => rfl⟩
  | cons hd rest ih =>
    obtain ⟨pid, q, price⟩ := hd
    intro st
    by_cases hb : (reserve_stock st pid q oid).1 = true
    · obtain ⟨s, hs, hge⟩ := reserve_stock_true_inv st pid q oid hb
      have hsucc := reserve_stock_success st pid q oid s hs hge
      have hstep : reserveLoop oid st ((pid, q, price) :: rest) =
          reserveLoop oid (reserve_stock st pid q oid).2 rest := by
        simp only [reserveLoop]
        rw [if_pos hb]
      obtain ⟨ho, hid, newRs, hres, hprops, himp⟩ := ih (reserve_stock st pid q oid).2
      have horders2 : (reserve_stock st pid q oid).2.orders = st.orders := by rw [hsucc]
      have hids2 : (reserve_stock st pid q oid).2.stocks.map (fun t => t.id) =
          st.stocks.map (fun t => t.id) := by
        rw [hsucc]
        show (st.stocks.map (reserve_apply s.id q)).map _ = _
        rw [List.map_map]
        apply List.map_congr_left
        intro t _
        simp [Function.comp, reserve_apply_id]
      have hres2 : (reserve_stock st pid q oid).2.reservations =
          st.reservations ++
            [{ id := st.nextReservationId, stock_id := s.id, order_id := oid,
               quantity := q, active := true }] := by
        rw [hsucc]
      rw [hstep]
      refine ⟨by rw [ho, horders2], by rw [hid, hids2],
        { id := st.nextReservationId, stock_id := s.id, order_id := oid,
          quantity := q, active := true } :: newRs, ?_, ?_, ?_⟩
      · rw [hres, hres2, List.append_assoc]
        rfl
      · intro r hr
        rcases List.mem_cons.mp hr with h | h
        · subst h
          refine ⟨rfl, rfl, ?_⟩
          have hmem : s ∈ st.stocks := List.mem_of_find?_eq_some hs
          have hidmem : s.id ∈
              (reserveLoop oid (reserve_stock st pid q oid).2 rest).2.stocks.map
                (fun t => t.id) := by
            rw [hid, hids2]
            exact List.mem_map_of_mem _ hmem
          obtain ⟨t, ht, hte⟩ := List.mem_map.mp hidmem
          exact ⟨t, ht, hte⟩
        · exact hprops r h
      · intro htrue
        simp only [List.map_cons]
        rw [himp htrue]
    · have hb' : (reserve_stock st pid q oid).1 = false := by simpa using hb
      have hfail := reserve_stock_false_state st pid q oid hb'
      have hstep : reserveLoop oid st ((pid, q, price) :: rest) =
          (false, (reserve_stock st pid q oid).2) := by
        simp only [reserveLoop]
        rw [if_neg hb]
      rw [hstep, hfail]
      refine ⟨rfl, rfl, [], (List.append_nil _).symm, by simp, ?_⟩
      intro hfalse
      exact absurd hfalse (by simp)

/-- C4: after any `create_order` call returns, either the call succeeded,
the persisted order is PENDING and its active reservations carry exactly
the requested lines' quantities in order, or the call errored, any
persisted order for this request is CANCELLED (none exists when validation
failed), and the request holds no active reservation — reservations made
for earlier lines before a failed line have been released. -/
theorem create_order_all_or_nothing (st : DBState) (uid : Nat) (items : List (Nat × Int))
    (h1 : ∀ o ∈ st.orders, o.id ≠ st.nextOrderId)
    (h2 : ∀ r ∈ st.reservations, r.order_id ≠ st.nextOrderId) :
    (∃ st', create_order st uid items = (st', Except.ok st.nextOrderId) ∧
      order_status st' st.nextOrderId = some OrderStatus.pending ∧
      (active_reservations st' st.nextOrderId).map (fun r => r.quantity) =
        items.map (fun i => i.2)) ∨
    (∃ st' e, create_order st uid items = (st', Except.error e) ∧
      (order_status st' st.nextOrderId = none ∨
        order_status st' st.nextOrderId = some OrderStatus.cancelled) ∧
      active_reservations st' st.nextOrderId = []) := by
  have hstnone : order_status st st.nextOrderId = none := by
    unfold order_status get_order_by_id
    rw [List.find?_eq_none.mpr (fun o ho => by simpa using h1 o ho)]
    rfl
  have hstact : active_reservations st st.nextOrderId = [] :=
    filter_active_nil st.reservations st.nextOrderId h2
  by_cases hc : st.users.contains uid = true
  · cases hval : validate_products st items with
    | none =>
      refine Or.inr ⟨st, Err.productNotFound, ?_, Or.inl hstnone, hstact⟩
      unfold create_order
      rw [if_pos hc]
      simp only [hval]
    | some priced =>
      obtain ⟨ho, hid, newRs, hres, hprops, himp⟩ :=
        reserveLoop_props st.nextOrderId priced (persist_order st uid priced)
      cases hlp : reserveLoop st.nextOrderId (persist_order st uid priced) priced with
      | mk b st2 =>
        rw [hlp] at ho hid hres hprops himp
        have hfo : st2.orders = st.orders ++
            [{ id := st.nextOrderId, user_id := uid, status := OrderStatus.pending,
               total_amount := total_amount_of priced }] := ho
        have hget2 : get_order_by_id st2 st.nextOrderId =
            some { id := st.nextOrderId, user_id := uid, status := OrderStatus.pending,
                   total_amount := total_amount_of priced } := by
          unfold get_order_by_id
          rw [hfo]
          exact find?_orders_append_fresh st.orders _ st.nextOrderId h1 rfl
        have hres' : st2.reservations = st.reservations ++ newRs := hres
        have hactive : active_reservations st2 st.nextOrderId = newRs := by
          unfold active_reservations
          rw [hres', List.filter_append, filter_active_nil st.reservations _ h2,
            filter_active_self newRs _ (fun r hr => ⟨(hprops r hr).1, (hprops r hr).2.1⟩)]
          exact List.nil_append newRs
        cases b with
        | true =>
          refine Or.inl ⟨st2, ?_, ?_, ?_⟩
          · unfold create_order
            rw [if_pos hc]
            simp only [hval, hlp]
          · unfold order_status
            rw [hget2]
            rfl
          · rw [hactive, himp rfl, validate_products_quantities st items priced hval]
        | false =>
          have hex2 : ∀ r ∈ active_reservations st2 st.nextOrderId,
              ∃ s ∈ st2.stocks, s.id = r.stock_id := by
            rw [hactive]
            intro r hr
            exact (hprops r hr).2.2
          obtain ⟨st3, hcan, hstat3, hact3, -, -, -, -, -, -⟩ :=
            cancel_internal_existing st2 st.nextOrderId _ hget2 hex2
          refine Or.inr ⟨st3, Err.insufficientInventory, ?_, Or.inr hstat3, hact3⟩
          unfold create_order
          rw [if_pos hc]
          simp only [hval, hlp, hcan]
  · refine Or.inr ⟨st, Err.userNotFound, ?_, Or.inl hstnone, hstact⟩
    unfold create_order
    rw [if_neg hc]

/-- Applying `create_order_all_or_nothing` at the scenario state for an order
of 2 units of product 9 (satisfiable) and 100 units (insufficient). -/
theorem create_order_all_or_nothing_witness :
    ((∃ st', create_order baseState 1 [(9, 2)] = (st', Except.ok 43) ∧
      order_status st' 43 = some OrderStatus.pending ∧
      (active_reservations st' 43).map (fun r => r.quantity) =
        [(9, (2 : Int))].map (fun i => i.2)) ∨
    (∃ st' e, create_order baseState 1 [(9, 2)] = (st', Except.error e) ∧
      (order_status st' 43 = none ∨ order_status st' 43 = some OrderStatus.cancelled) ∧
      active_reservations st' 43 = [])) ∧
    ((∃ st', create_order baseState 1 [(9, 100)] = (st', Except.ok 43) ∧
      order_status st' 43 = some OrderStatus.pending ∧
      (active_reservations st' 43).map (fun r => r.quantity) =
        [(9, (100 : Int))].map (fun i => i.2)) ∨
    (∃ st' e, create_order baseState 1 [(9, 100)] = (st', Except.error e) ∧
      (order_status st' 43 = none ∨ order_status st' 43 = some OrderStatus.cancelled) ∧
      active_reservations st' 43 = [])) :=
  ⟨create_order_all_or_nothing baseState 1 [(9, 2)] (by decide) (by decide),
    create_order_all_or_nothing baseState 1 [(9, 100)] (by decide) (by decide)⟩

end ServiceObservability
